import Mathlib

/-!
Shallow embedding of the `RequestQueue` class from `src/request-queue.js`
(a single-flight request dispatcher with FIFO queueing, wrapping ids,
per-request timeout and an optional inter-send delay), together with the
duplicate of the class embedded in the demo file.

JavaScript features are modelled as follows:
* the `queue` array of `{id, request}` items is a `List Envelope`;
* the `activeRequests` `Map` is an association list `List (Nat × α)` with
  JS-`Map` semantics (`mapGet` / `mapSet` / `mapDelete`);
* armed `setTimeout` timeout timers are an association list `timers`
  mapping the bound request id to the requested duration; `clearTimeout`
  deletes the entry, and a timer firing consumes its entry;
* the armed inter-send delay timer of `_scheduleNextProcess` is
  `delayTimer : Option Int` (the armed duration, `none` when not armed);
* the outstanding (dispatched, not yet settled) transport promises created
  in `_tryProcessNext` are the list `inFlight`; a promise settling is a
  `resolveOk` / `resolveErr` action of the event-loop transition system;
* `this.sendingDelay` may be `undefined` or any number, hence `Option Int`;
* a transport result object is `TransportResp`: `id`/`response` are
  `Option`s, `none` standing for an absent field (`hasOwnProperty` false);
* `emit` calls are recorded as events in an output trace; the trace also
  records a ghost `enqueued` event for the `this.queue.push` in
  `addRequest` and a `sent` event for each transport invocation, so that
  enqueue order and transport-invocation order are observable;
* an exception is `Except.error`; the `throw new Error(...)` in
  `_handleResponse` and the `try { emit } catch` blocks are modelled
  explicitly.
-/

namespace RQ

/-- An element of `this.queue`: the `{ id: requestId, request: oRequest }`
item built in `addRequest`, which is also the envelope handed to
`sendFunction`. -/
structure Envelope (α : Type) where
  id : Nat
  request : α
  deriving DecidableEq, Repr

/-- A transport result object as inspected by `_handleResponse`.
`id = none` models an object without an `id` property (so that
`activeRequests.get(currentResp.id)` looks up `undefined` and finds
nothing); `response = none` models an object without a `response`
property. -/
structure TransportResp (β : Type) where
  id : Option Nat
  response : Option β
  deriving DecidableEq, Repr

/-- Observable events of one dispatcher run.  `enqueued` is the ghost
record of the `queue.push` in `addRequest`; `sent` records a transport
invocation (`sendFunction(currentReq)`); the other three are the
`emit('success' | 'timeout' | 'error', ...)` notifications.  The timeout
notification's error field is the constant `Error('Request timed out')`
and is not carried. -/
inductive Event (α β : Type) where
  | enqueued (env : Envelope α)
  | sent (env : Envelope α)
  | success (id : Nat) (response : β)
  | timeout (id : Nat) (request : α)
  | error (id : Nat) (request : α) (err : String)
  deriving DecidableEq, Repr

/-- `m.get(k)` on a JS `Map` encoded as an association list. -/
def mapGet {β : Type} (m : List (Nat × β)) (k : Nat) : Option β :=
  match m with
  | [] => none
  | (k1, v) :: rest => if k1 = k then some v else mapGet rest k

/-- `m.set(k, v)` on a JS `Map`: replace in place if the key exists,
otherwise append. -/
def mapSet {β : Type} (m : List (Nat × β)) (k : Nat) (v : β) : List (Nat × β) :=
  match m with
  | [] => [(k, v)]
  | (k1, v1) :: rest => if k1 = k then (k, v) :: rest else (k1, v1) :: mapSet rest k v

/-- `m.delete(k)` on a JS `Map` (keys are unique, so deleting the first
occurrence is exact). -/
def mapDelete {β : Type} (m : List (Nat × β)) (k : Nat) : List (Nat × β) :=
  match m with
  | [] => []
  | (k1, v1) :: rest => if k1 = k then rest else (k1, v1) :: mapDelete rest k

/-- Membership test used by the event-loop model. -/
def hasElem {γ : Type} [DecidableEq γ] (x : γ) : List γ → Bool
  | [] => false
  | y :: rest => if y = x then true else hasElem x rest

/-- Remove the first occurrence of an element. -/
def removeFirst {γ : Type} [DecidableEq γ] (x : γ) : List γ → List γ
  | [] => []
  | y :: rest => if y = x then rest else y :: removeFirst x rest

/-- The mutable state of one `RequestQueue` instance
(`src/request-queue.js`), together with the armed timers and the
outstanding transport promises of the surrounding event loop. -/
structure State (α : Type) where
  maxId : Nat
  timeoutDuration : Nat
  sendingDelay : Option Int
  queue : List (Envelope α)
  activeRequests : List (Nat × α)
  isProcessing : Bool
  isDelaying : Bool
  requestCounter : Nat
  timers : List (Nat × Nat)
  delayTimer : Option Int
  inFlight : List (Envelope α)
  deriving DecidableEq, Repr

variable {α β : Type}

/-- The state built by the constructor. -/
def init (α : Type) (maxId timeoutDuration : Nat) (sendingDelay : Option Int) : State α :=
  { maxId := maxId
    timeoutDuration := timeoutDuration
    sendingDelay := sendingDelay
    queue := []
    activeRequests := []
    isProcessing := false
    isDelaying := false
    requestCounter := 0
    timers := []
    delayTimer := none
    inFlight := [] }

/-- `_generateId`: `this.requestCounter < this.maxId ? this.requestCounter++
: (this.requestCounter = 0); return this.requestCounter;` — note that the
returned value is the counter after the update. -/
def generateId (s : State α) : Nat × State α :=
  let c := if s.requestCounter < s.maxId then s.requestCounter + 1 else 0
  (c, { s with requestCounter := c })

/-- `_tryProcessNext`: gated on `isProcessing`/`isDelaying` and on a
non-empty queue; otherwise admits the head of the queue: sets
`isProcessing`, shifts the queue, arms the timeout timer for
`timeoutDuration` bound to the request's id, records the active entry, and
dispatches the transport call (the dispatched envelope joins `inFlight`;
its later settlement is a separate event-loop action). The
`if (!currentReq)` guard in the source is unreachable here because the
queue was just checked to be non-empty. -/
def tryProcessNext (s : State α) : State α × List (Event α β) :=
  if s.isProcessing || s.isDelaying then (s, [])
  else
    match s.queue with
    | [] => (s, [])
    | currentReq :: rest =>
      ({ s with
          isProcessing := true
          queue := rest
          timers := s.timers ++ [(currentReq.id, s.timeoutDuration)]
          activeRequests := mapSet s.activeRequests currentReq.id currentReq.request
          inFlight := s.inFlight ++ [currentReq] },
        [Event.sent currentReq])

/-- `_scheduleNextProcess`: returns at once on an empty queue; with
`this.sendingDelay && this.sendingDelay > 0` arms the inter-send delay
timer and sets `isDelaying`; otherwise calls `_tryProcessNext` directly.
(`undefined` and non-positive numbers are falsy for that test.) -/
def scheduleNextProcess (s : State α) : State α × List (Event α β) :=
  if s.queue.length = 0 then (s, [])
  else
    match s.sendingDelay with
    | some d =>
      if 0 < d then ({ s with isDelaying := true, delayTimer := some d }, [])
      else tryProcessNext s
    | none => tryProcessNext s

/-- `addRequest`: allocate an id, push `{id, request}` onto the queue,
try to process, and return the id. -/
def addRequest (s : State α) (oRequest : α) : Nat × State α × List (Event α β) :=
  let g := generateId s
  let requestItem : Envelope α := { id := g.1, request := oRequest }
  let s2 := { g.2 with queue := g.2.queue ++ [requestItem] }
  let r : State α × List (Event α β) := tryProcessNext s2
  (g.1, r.1, Event.enqueued requestItem :: r.2)

/-- `_handleResponse`: look the result's id up among the active requests
(an absent `id` property means `get(undefined)`, which finds nothing);
silently ignore an unknown id; on a well-formed `{id, response}` result
cancel the timer, delete the entry, emit `success`, clear `isProcessing`
and schedule the next request; on a malformed result throw
`Error('The response structure is invalid')`. -/
def handleResponse (s : State α) (currentResp : TransportResp β) :
    Except String (State α × List (Event α β)) :=
  match currentResp.id with
  | none => Except.ok (s, [])
  | some i =>
    match mapGet s.activeRequests i with
    | none => Except.ok (s, [])
    | some _ =>
      match currentResp.response with
      | none => Except.error "The response structure is invalid"
      | some r =>
        let s1 := { s with
          timers := mapDelete s.timers i
          activeRequests := mapDelete s.activeRequests i
          isProcessing := false }
        let nxt : State α × List (Event α β) := scheduleNextProcess s1
        Except.ok (nxt.1, Event.success i r :: nxt.2)

/-- `_handleTimeout`: fired by the timeout timer bound to `id`; a missing
active entry is a silent no-op; otherwise delete the entry, emit
`timeout`, clear `isProcessing`, schedule the next request. (The fired
timer itself is consumed by the event-loop step that invokes this.) -/
def handleTimeout (s : State α) (id : Nat) : State α × List (Event α β) :=
  match mapGet s.activeRequests id with
  | none => (s, [])
  | some requestData =>
    let s1 := { s with
      activeRequests := mapDelete s.activeRequests id
      isProcessing := false }
    let nxt : State α × List (Event α β) := scheduleNextProcess s1
    (nxt.1, Event.timeout id requestData :: nxt.2)

/-- `_handleError`: a missing active entry is a silent no-op; otherwise
cancel the timer, delete the entry, emit `error` with the failure reason,
clear `isProcessing`, schedule the next request. -/
def handleError (s : State α) (id : Nat) (err : String) : State α × List (Event α β) :=
  match mapGet s.activeRequests id with
  | none => (s, [])
  | some requestData =>
    let s1 := { s with
      timers := mapDelete s.timers id
      activeRequests := mapDelete s.activeRequests id
      isProcessing := false }
    let nxt : State α × List (Event α β) := scheduleNextProcess s1
    (nxt.1, Event.error id requestData err :: nxt.2)

/-- The settlement of the promise chain built in `_tryProcessNext`:
`.then((currentResp) => this._handleResponse(currentResp))` followed by
`.catch((error) => this._handleError(currentReq.id, error))` — so an
exception thrown inside `_handleResponse` is caught by the chain and
routed to `_handleError` with the original envelope's id.
(`_handleResponse` throws before mutating any state, so running
`_handleError` on the pre-call state is exact.) -/
def resolveOkAux (s : State α) (env : Envelope α) (currentResp : TransportResp β) :
    State α × List (Event α β) :=
  match handleResponse s currentResp with
  | Except.ok out => out
  | Except.error e => handleError s env.id e

/-- `getQueueSize`: `this.queue.length`. -/
def getQueueSize (s : State α) : Nat := s.queue.length

/-- `getActiveCount`: `this.activeRequests.size`. -/
def getActiveCount (s : State α) : Nat := s.activeRequests.length

/-! ### Observer failures

The three resolution handlers wrap their `emit` call in
`try { this.emit(...) } catch (e) { console.log(...) }`.  The variants
below make the possible observer exception explicit: `observerThrows`
says whether the notified observer (or, for an `error` emission with no
subscribed `error` listener, the `EventEmitter` itself) throws; the
return type `Except String _` would let such an exception escape the
handler if the handler did not catch it. -/

/-- One `emit` call whose observer may throw. -/
def emitObs (observerThrows : Bool) : Except String Unit :=
  if observerThrows then Except.error "observer exception" else Except.ok ()

/-- The `try { emit } catch (e) { console.log(...) }` block: an exception
from the emission is caught and logged, never re-thrown. -/
def tryEmit (observerThrows : Bool) : Unit :=
  match emitObs observerThrows with
  | Except.ok u => u
  | Except.error _ => ()

/-- `_handleResponse` with the observer exception made explicit. -/
def handleResponseObs (observerThrows : Bool) (s : State α) (currentResp : TransportResp β) :
    Except String (State α × List (Event α β)) :=
  match currentResp.id with
  | none => Except.ok (s, [])
  | some i =>
    match mapGet s.activeRequests i with
    | none => Except.ok (s, [])
    | some _ =>
      match currentResp.response with
      | none => Except.error "The response structure is invalid"
      | some r =>
        let s1 := { s with
          timers := mapDelete s.timers i
          activeRequests := mapDelete s.activeRequests i }
        let _u := tryEmit observerThrows
        let s2 := { s1 with isProcessing := false }
        let nxt : State α × List (Event α β) := scheduleNextProcess s2
        Except.ok (nxt.1, Event.success i r :: nxt.2)

/-- `_handleTimeout` with the observer exception made explicit. -/
def handleTimeoutObs (observerThrows : Bool) (s : State α) (id : Nat) :
    Except String (State α × List (Event α β)) :=
  match mapGet s.activeRequests id with
  | none => Except.ok (s, [])
  | some requestData =>
    let s1 := { s with activeRequests := mapDelete s.activeRequests id }
    let _u := tryEmit observerThrows
    let s2 := { s1 with isProcessing := false }
    let nxt : State α × List (Event α β) := scheduleNextProcess s2
    Except.ok (nxt.1, Event.timeout id requestData :: nxt.2)

/-- `_handleError` with the observer exception made explicit. -/
def handleErrorObs (observerThrows : Bool) (s : State α) (id : Nat) (err : String) :
    Except String (State α × List (Event α β)) :=
  match mapGet s.activeRequests id with
  | none => Except.ok (s, [])
  | some requestData =>
    let s1 := { s with
      timers := mapDelete s.timers id
      activeRequests := mapDelete s.activeRequests id }
    let _u := tryEmit observerThrows
    let s2 := { s1 with isProcessing := false }
    let nxt : State α × List (Event α β) := scheduleNextProcess s2
    Except.ok (nxt.1, Event.error id requestData err :: nxt.2)

/-! ### The event-loop transition system

A run of the dispatcher inside Node's single-threaded event loop is a
sequence of atomic actions: a caller's `addRequest`, the firing of an
armed timeout timer, the settlement (fulfilment or rejection) of an
outstanding transport promise, and the firing of the armed inter-send
delay timer.  An action whose trigger is not armed / not outstanding
cannot occur in the real system and is a no-op here. -/

inductive Action (α β : Type) where
  | add (oRequest : α)
  | fireTimeout (id : Nat)
  | resolveOk (env : Envelope α) (currentResp : TransportResp β)
  | resolveErr (env : Envelope α) (err : String)
  | delayFire
  deriving DecidableEq, Repr

/-- One atomic event-loop step. -/
def step [DecidableEq α] [DecidableEq β] (s : State α) (a : Action α β) :
    State α × List (Event α β) :=
  match a with
  | Action.add p =>
    let r := addRequest (β := β) s p
    (r.2.1, r.2.2)
  | Action.fireTimeout id =>
    if (mapGet s.timers id).isSome then
      handleTimeout { s with timers := mapDelete s.timers id } id
    else (s, [])
  | Action.resolveOk env currentResp =>
    if hasElem env s.inFlight then
      resolveOkAux { s with inFlight := removeFirst env s.inFlight } env currentResp
    else (s, [])
  | Action.resolveErr env err =>
    if hasElem env s.inFlight then
      handleError { s with inFlight := removeFirst env s.inFlight } env.id err
    else (s, [])
  | Action.delayFire =>
    if s.delayTimer.isSome then
      tryProcessNext { s with delayTimer := none, isDelaying := false }
    else (s, [])

/-- Run a sequence of event-loop actions, collecting the event trace. -/
def execRun [DecidableEq α] [DecidableEq β] : State α → List (Action α β) → State α × List (Event α β)
  | s, [] => (s, [])
  | s, a :: as =>
    let r := step s a
    let rest := execRun r.1 as
    (rest.1, r.2 ++ rest.2)

/-- A sequence of consecutive `addRequest` calls, collecting the returned
ids. -/
def addMany : State α → List α → List Nat × State α
  | s, [] => ([], s)
  | s, p :: ps =>
    let r := addRequest (β := Unit) s p
    let rest := addMany r.2.1 ps
    (r.1 :: rest.1, rest.2)

/-! ### Trace observations -/

/-- The envelopes pushed onto the queue, in push order. -/
def enqueuedEnvs : List (Event α β) → List (Envelope α)
  | [] => []
  | Event.enqueued e :: rest => e :: enqueuedEnvs rest
  | _ :: rest => enqueuedEnvs rest

/-- The envelopes handed to the transport, in invocation order. -/
def sentEnvs : List (Event α β) → List (Envelope α)
  | [] => []
  | Event.sent e :: rest => e :: sentEnvs rest
  | _ :: rest => sentEnvs rest

/-- The outcome notifications (`success`/`timeout`/`error`) of a trace,
in emission order. -/
def notifEvents : List (Event α β) → List (Event α β)
  | [] => []
  | Event.success i r :: rest => Event.success i r :: notifEvents rest
  | Event.timeout i q :: rest => Event.timeout i q :: notifEvents rest
  | Event.error i q e :: rest => Event.error i q e :: notifEvents rest
  | _ :: rest => notifEvents rest

/-- The timeout notifications of a trace. -/
def timeoutEvents : List (Event α β) → List (Event α β)
  | [] => []
  | Event.timeout i q :: rest => Event.timeout i q :: timeoutEvents rest
  | _ :: rest => timeoutEvents rest

end RQ

namespace Dup

/-!
The duplicate `RequestQueue` class embedded in the second half of the
demo source file (`src/unnamed/part_000`, after the module separator).
It differs from `src/request-queue.js` in that its constructor takes no
`sendingDelay`, it has no `isDelaying` flag and no `_scheduleNextProcess`;
each resolution handler calls `_tryProcessNext` directly, and
`_tryProcessNext` is gated on `isProcessing` alone.
-/

open RQ (Envelope TransportResp Event mapGet mapSet mapDelete hasElem removeFirst)

/-- The state of the duplicate class: as `RQ.State` but without
`sendingDelay`, `isDelaying` and the delay timer. -/
structure State (α : Type) where
  maxId : Nat
  timeoutDuration : Nat
  queue : List (Envelope α)
  activeRequests : List (Nat × α)
  isProcessing : Bool
  requestCounter : Nat
  timers : List (Nat × Nat)
  inFlight : List (Envelope α)
  deriving DecidableEq, Repr

variable {α β : Type}

/-- The duplicate constructor. -/
def init (α : Type) (maxId timeoutDuration : Nat) : State α :=
  { maxId := maxId
    timeoutDuration := timeoutDuration
    queue := []
    activeRequests := []
    isProcessing := false
    requestCounter := 0
    timers := []
    inFlight := [] }

/-- The duplicate `_generateId` (identical text). -/
def generateId (s : State α) : Nat × State α :=
  let c := if s.requestCounter < s.maxId then s.requestCounter + 1 else 0
  (c, { s with requestCounter := c })

/-- The duplicate `_tryProcessNext`: gated on `isProcessing` only. -/
def tryProcessNext (s : State α) : State α × List (Event α β) :=
  if s.isProcessing then (s, [])
  else
    match s.queue with
    | [] => (s, [])
    | currentReq :: rest =>
      ({ s with
          isProcessing := true
          queue := rest
          timers := s.timers ++ [(currentReq.id, s.timeoutDuration)]
          activeRequests := mapSet s.activeRequests currentReq.id currentReq.request
          inFlight := s.inFlight ++ [currentReq] },
        [Event.sent currentReq])

/-- The duplicate `addRequest` (identical text). -/
def addRequest (s : State α) (oRequest : α) : Nat × State α × List (Event α β) :=
  let g := generateId s
  let requestItem : Envelope α := { id := g.1, request := oRequest }
  let s2 := { g.2 with queue := g.2.queue ++ [requestItem] }
  let r : State α × List (Event α β) := tryProcessNext s2
  (g.1, r.1, Event.enqueued requestItem :: r.2)

/-- The duplicate `_handleResponse`: as in `request-queue.js` but ending
in a direct `_tryProcessNext` call. -/
def handleResponse (s : State α) (currentResp : TransportResp β) :
    Except String (State α × List (Event α β)) :=
  match currentResp.id with
  | none => Except.ok (s, [])
  | some i =>
    match mapGet s.activeRequests i with
    | none => Except.ok (s, [])
    | some _ =>
      match currentResp.response with
      | none => Except.error "The response structure is invalid"
      | some r =>
        let s1 := { s with
          timers := mapDelete s.timers i
          activeRequests := mapDelete s.activeRequests i
          isProcessing := false }
        let nxt : State α × List (Event α β) := tryProcessNext s1
        Except.ok (nxt.1, Event.success i r :: nxt.2)

/-- The duplicate `_handleTimeout`. -/
def handleTimeout (s : State α) (id : Nat) : State α × List (Event α β) :=
  match mapGet s.activeRequests id with
  | none => (s, [])
  | some requestData =>
    let s1 := { s with
      activeRequests := mapDelete s.activeRequests id
      isProcessing := false }
    let nxt : State α × List (Event α β) := tryProcessNext s1
    (nxt.1, Event.timeout id requestData :: nxt.2)

/-- The duplicate `_handleError`. -/
def handleError (s : State α) (id : Nat) (err : String) : State α × List (Event α β) :=
  match mapGet s.activeRequests id with
  | none => (s, [])
  | some requestData =>
    let s1 := { s with
      timers := mapDelete s.timers id
      activeRequests := mapDelete s.activeRequests id
      isProcessing := false }
    let nxt : State α × List (Event α β) := tryProcessNext s1
    (nxt.1, Event.error id requestData err :: nxt.2)

/-- The duplicate promise chain (identical text in `_tryProcessNext`). -/
def resolveOkAux (s : State α) (env : Envelope α) (currentResp : TransportResp β) :
    State α × List (Event α β) :=
  match handleResponse s currentResp with
  | Except.ok out => out
  | Except.error e => handleError s env.id e

/-- The duplicate `getQueueSize`. -/
def getQueueSize (s : State α) : Nat := s.queue.length

/-- The duplicate `getActiveCount`. -/
def getActiveCount (s : State α) : Nat := s.activeRequests.length

/-- One atomic event-loop step of the duplicate class.  The duplicate has
no inter-send delay timer, so a `delayFire` action can never occur for
it and is a no-op. -/
def step [DecidableEq α] [DecidableEq β] (s : State α) (a : RQ.Action α β) :
    State α × List (Event α β) :=
  match a with
  | RQ.Action.add p =>
    let r := addRequest (β := β) s p
    (r.2.1, r.2.2)
  | RQ.Action.fireTimeout id =>
    if (mapGet s.timers id).isSome then
      handleTimeout { s with timers := mapDelete s.timers id } id
    else (s, [])
  | RQ.Action.resolveOk env currentResp =>
    if hasElem env s.inFlight then
      resolveOkAux { s with inFlight := removeFirst env s.inFlight } env currentResp
    else (s, [])
  | RQ.Action.resolveErr env err =>
    if hasElem env s.inFlight then
      handleError { s with inFlight := removeFirst env s.inFlight } env.id err
    else (s, [])
  | RQ.Action.delayFire => (s, [])

/-- Run a sequence of event-loop actions on the duplicate class. -/
def execRun [DecidableEq α] [DecidableEq β] :
    State α → List (RQ.Action α β) → State α × List (Event α β)
  | s, [] => (s, [])
  | s, a :: as =>
    let r := step s a
    let rest := execRun r.1 as
    (rest.1, r.2 ++ rest.2)

end Dup

namespace RQ

/-- Forget the delay-related fields of a `RQ.State`, yielding the state
of the duplicate class. -/
def toDup {α : Type} (s : State α) : Dup.State α :=
  { maxId := s.maxId
    timeoutDuration := s.timeoutDuration
    queue := s.queue
    activeRequests := s.activeRequests
    isProcessing := s.isProcessing
    requestCounter := s.requestCounter
    timers := s.timers
    inFlight := s.inFlight }

/-- `sendingDelay` is absent or non-positive (falsy for the
`this.sendingDelay && this.sendingDelay > 0` test). -/
def noDelay (sd : Option Int) : Prop :=
  ∀ d, sd = some d → d ≤ 0

end RQ

namespace RQ

/-! ### Basic lemmas about the map encoding -/

theorem mapGet_singleton {γ : Type} {m : List (Nat × γ)} {k : Nat} {v : γ}
    (hlen : m.length ≤ 1) (hget : mapGet m k = some v) : m = [(k, v)] := by
  match m with
  | [] => simp [mapGet] at hget
  | [(k1, v1)] =>
    by_cases hk : k1 = k
    · subst hk
      simp [mapGet] at hget
      subst hget
      rfl
    · simp [mapGet, hk] at hget
  | (k1, v1) :: (k2, v2) :: rest => simp at hlen

theorem mapDelete_cons_self {γ : Type} {k : Nat} {v : γ} {rest : List (Nat × γ)} :
    mapDelete ((k, v) :: rest) k = rest := by
  simp [mapDelete]

/-! ### Characterization of `_tryProcessNext` -/

theorem tryProcessNext_blocked {α β : Type} {s : State α}
    (h : s.isProcessing = true ∨ s.isDelaying = true) :
    tryProcessNext (β := β) s = (s, []) := by
  unfold tryProcessNext
  rcases h with h | h <;> simp [h]

theorem tryProcessNext_nilQueue {α β : Type} {s : State α} (h : s.queue = []) :
    tryProcessNext (β := β) s = (s, []) := by
  unfold tryProcessNext
  split
  · rfl
  · rw [h]

theorem tryProcessNext_sendHead {α β : Type} {s : State α} {h : Envelope α} {t : List (Envelope α)}
    (hp : s.isProcessing = false) (hd : s.isDelaying = false) (hq : s.queue = h :: t) :
    tryProcessNext (β := β) s =
      ({ s with
          isProcessing := true
          queue := t
          timers := s.timers ++ [(h.id, s.timeoutDuration)]
          activeRequests := mapSet s.activeRequests h.id h.request
          inFlight := s.inFlight ++ [h] },
        [Event.sent h]) := by
  unfold tryProcessNext
  rw [hq]
  simp [hp, hd]

/-! ### Constant fields -/

theorem tryProcessNext_counter {α β : Type} (s : State α) :
    (tryProcessNext (β := β) s).1.requestCounter = s.requestCounter ∧
    (tryProcessNext (β := β) s).1.maxId = s.maxId ∧
    (tryProcessNext (β := β) s).1.sendingDelay = s.sendingDelay ∧
    (tryProcessNext (β := β) s).1.timeoutDuration = s.timeoutDuration := by
  unfold tryProcessNext
  split
  · exact ⟨rfl, rfl, rfl, rfl⟩
  · split <;> exact ⟨rfl, rfl, rfl, rfl⟩

theorem scheduleNextProcess_counter {α β : Type} (s : State α) :
    (scheduleNextProcess (β := β) s).1.requestCounter = s.requestCounter ∧
    (scheduleNextProcess (β := β) s).1.maxId = s.maxId ∧
    (scheduleNextProcess (β := β) s).1.sendingDelay = s.sendingDelay ∧
    (scheduleNextProcess (β := β) s).1.timeoutDuration = s.timeoutDuration := by
  unfold scheduleNextProcess
  split
  · exact ⟨rfl, rfl, rfl, rfl⟩
  · split
    · split
      · exact ⟨rfl, rfl, rfl, rfl⟩
      · exact tryProcessNext_counter s
    · exact tryProcessNext_counter s

/-! ### Characterization of the resolution handlers -/

/-- The state after the mutations of the timeout path: entry deleted,
`isProcessing` cleared (the fired timer needs no cancellation). -/
def afterTimeout {α : Type} (s : State α) (id : Nat) : State α :=
  { s with
    activeRequests := mapDelete s.activeRequests id
    isProcessing := false }

/-- The state after the mutations of the success / error paths: timer
cancelled, entry deleted, `isProcessing` cleared. -/
def afterClear {α : Type} (s : State α) (id : Nat) : State α :=
  { s with
    timers := mapDelete s.timers id
    activeRequests := mapDelete s.activeRequests id
    isProcessing := false }

theorem handleTimeout_notActive {α β : Type} {s : State α} {id : Nat}
    (hget : mapGet s.activeRequests id = none) :
    handleTimeout (β := β) s id = (s, []) := by
  unfold handleTimeout
  rw [hget]

theorem handleTimeout_active {α β : Type} {s : State α} {id : Nat} {r : α}
    (hget : mapGet s.activeRequests id = some r) :
    handleTimeout (β := β) s id =
      ((scheduleNextProcess (β := β) (afterTimeout s id)).1,
        Event.timeout id r :: (scheduleNextProcess (β := β) (afterTimeout s id)).2) := by
  unfold handleTimeout
  rw [hget]
  rfl

theorem handleError_notActive {α β : Type} {s : State α} {id : Nat} {err : String}
    (hget : mapGet s.activeRequests id = none) :
    handleError (β := β) s id err = (s, []) := by
  unfold handleError
  rw [hget]

theorem handleError_active {α β : Type} {s : State α} {id : Nat} {err : String} {r : α}
    (hget : mapGet s.activeRequests id = some r) :
    handleError (β := β) s id err =
      ((scheduleNextProcess (β := β) (afterClear s id)).1,
        Event.error id r err :: (scheduleNextProcess (β := β) (afterClear s id)).2) := by
  unfold handleError
  rw [hget]
  rfl

theorem handleResponse_noId {α β : Type} {s : State α} {resp : TransportResp β}
    (hid : resp.id = none) :
    handleResponse s resp = Except.ok (s, []) := by
  unfold handleResponse
  rw [hid]

theorem handleResponse_notActive {α β : Type} {s : State α} {resp : TransportResp β} {i : Nat}
    (hid : resp.id = some i) (hget : mapGet s.activeRequests i = none) :
    handleResponse s resp = Except.ok (s, []) := by
  unfold handleResponse
  rw [hid]
  simp only
  rw [hget]

theorem handleResponse_malformed {α β : Type} {s : State α} {resp : TransportResp β}
    {i : Nat} {r : α}
    (hid : resp.id = some i) (hget : mapGet s.activeRequests i = some r)
    (hresp : resp.response = none) :
    handleResponse s resp = Except.error "The response structure is invalid" := by
  unfold handleResponse
  rw [hid]
  simp only
  rw [hget]
  simp only
  rw [hresp]

theorem handleResponse_valid {α β : Type} {s : State α} {resp : TransportResp β}
    {i : Nat} {r : α} {rv : β}
    (hid : resp.id = some i) (hget : mapGet s.activeRequests i = some r)
    (hresp : resp.response = some rv) :
    handleResponse s resp =
      Except.ok ((scheduleNextProcess (β := β) (afterClear s i)).1,
        Event.success i rv :: (scheduleNextProcess (β := β) (afterClear s i)).2) := by
  unfold handleResponse
  rw [hid]
  simp only
  rw [hget]
  simp only
  rw [hresp]
  rfl

/-! ### The single-flight invariant -/

/-- The inductive invariant of the dispatcher: when nothing is being
processed the active table is empty; the active table never holds more
than one entry; the delay pause and the processing phase never overlap;
the id counter stays bounded by `maxId`. -/
def Inv {α : Type} (s : State α) : Prop :=
  (s.isProcessing = false → s.activeRequests = []) ∧
  s.activeRequests.length ≤ 1 ∧
  (s.isProcessing = true → s.isDelaying = false) ∧
  s.requestCounter ≤ s.maxId

theorem inv_init (α : Type) (N T : Nat) (sd : Option Int) : Inv (init α N T sd) := by
  refine ⟨fun _ => rfl, ?_, fun h => ?_, ?_⟩
  · simp [init]
  · simp [init] at h
  · simp [init]

theorem inv_tryProcessNext {α β : Type} {s : State α} (h : Inv s) :
    Inv (tryProcessNext (β := β) s).1 := by
  obtain ⟨h1, h2, h3, h4⟩ := h
  by_cases hp : s.isProcessing = true
  · rw [tryProcessNext_blocked (Or.inl hp)]
    exact ⟨h1, h2, h3, h4⟩
  · by_cases hd : s.isDelaying = true
    · rw [tryProcessNext_blocked (Or.inr hd)]
      exact ⟨h1, h2, h3, h4⟩
    · rw [Bool.not_eq_true] at hp hd
      match hq : s.queue with
      | [] =>
        rw [tryProcessNext_nilQueue hq]
        exact ⟨h1, h2, h3, h4⟩
      | e :: t =>
        rw [tryProcessNext_sendHead hp hd hq]
        have hac : s.activeRequests = [] := h1 hp
        refine ⟨fun hcon => absurd hcon (by simp), ?_, fun _ => hd, h4⟩
        simp [hac, mapSet]

theorem inv_scheduleNextProcess {α β : Type} {s : State α}
    (h : Inv s) (hp : s.isProcessing = false) :
    Inv (scheduleNextProcess (β := β) s).1 := by
  obtain ⟨h1, h2, h3, h4⟩ := h
  unfold scheduleNextProcess
  split
  · exact ⟨h1, h2, h3, h4⟩
  · split
    · split
      · exact ⟨fun _ => h1 hp, h2, fun hcon => absurd hcon (by simp [hp]), h4⟩
      · exact inv_tryProcessNext ⟨h1, h2, h3, h4⟩
    · exact inv_tryProcessNext ⟨h1, h2, h3, h4⟩

/-- When the active table is a singleton, the post-resolution state of
the timeout path satisfies the invariant (ready for rescheduling). -/
theorem inv_afterTimeout {α : Type} {s : State α} {id : Nat} {r : α}
    (h : Inv s) (hget : mapGet s.activeRequests id = some r) :
    Inv (afterTimeout s id) ∧ (afterTimeout s id).isProcessing = false := by
  obtain ⟨h1, h2, h3, h4⟩ := h
  have hsing : s.activeRequests = [(id, r)] := mapGet_singleton h2 hget
  have hdel : mapDelete s.activeRequests id = [] := by rw [hsing, mapDelete_cons_self]
  refine ⟨⟨fun _ => ?_, ?_, fun hcon => absurd hcon (by simp [afterTimeout]), h4⟩, rfl⟩
  · simp [afterTimeout, hdel]
  · simp [afterTimeout, hdel]

theorem inv_afterClear {α : Type} {s : State α} {id : Nat} {r : α}
    (h : Inv s) (hget : mapGet s.activeRequests id = some r) :
    Inv (afterClear s id) ∧ (afterClear s id).isProcessing = false := by
  obtain ⟨h1, h2, h3, h4⟩ := h
  have hsing : s.activeRequests = [(id, r)] := mapGet_singleton h2 hget
  have hdel : mapDelete s.activeRequests id = [] := by rw [hsing, mapDelete_cons_self]
  refine ⟨⟨fun _ => ?_, ?_, fun hcon => absurd hcon (by simp [afterClear]), h4⟩, rfl⟩
  · simp [afterClear, hdel]
  · simp [afterClear, hdel]

theorem inv_handleTimeout {α β : Type} {s : State α} (h : Inv s) (id : Nat) :
    Inv (handleTimeout (β := β) s id).1 := by
  cases hget : mapGet s.activeRequests id with
  | none => rw [handleTimeout_notActive hget]; exact h
  | some r =>
    rw [handleTimeout_active hget]
    obtain ⟨hi, hp⟩ := inv_afterTimeout h hget
    exact inv_scheduleNextProcess hi hp

theorem inv_handleError {α β : Type} {s : State α} (h : Inv s) (id : Nat) (err : String) :
    Inv (handleError (β := β) s id err).1 := by
  cases hget : mapGet s.activeRequests id with
  | none => rw [handleError_notActive hget]; exact h
  | some r =>
    rw [handleError_active hget]
    obtain ⟨hi, hp⟩ := inv_afterClear h hget
    exact inv_scheduleNextProcess hi hp

theorem inv_resolveOkAux {α β : Type} {s : State α} (h : Inv s)
    (env : Envelope α) (resp : TransportResp β) :
    Inv (resolveOkAux s env resp).1 := by
  unfold resolveOkAux
  cases hid : resp.id with
  | none =>
    rw [handleResponse_noId hid]
    exact h
  | some i =>
    cases hget : mapGet s.activeRequests i with
    | none =>
      rw [handleResponse_notActive hid hget]
      exact h
    | some r =>
      cases hresp : resp.response with
      | none =>
        rw [handleResponse_malformed hid hget hresp]
        exact inv_handleError h env.id _
      | some rv =>
        rw [handleResponse_valid hid hget hresp]
        obtain ⟨hi, hp⟩ := inv_afterClear h hget
        exact inv_scheduleNextProcess hi hp

/-- `Inv` does not look at `timers`, `delayTimer` or `inFlight`. -/
theorem inv_of_fields {α : Type} {s s2 : State α}
    (hq : s2.activeRequests = s.activeRequests)
    (hp : s2.isProcessing = s.isProcessing)
    (hd : s2.isDelaying = s.isDelaying)
    (hc : s2.requestCounter = s.requestCounter)
    (hm : s2.maxId = s.maxId)
    (h : Inv s) : Inv s2 := by
  obtain ⟨h1, h2, h3, h4⟩ := h
  refine ⟨?_, ?_, ?_, ?_⟩
  · rw [hq, hp]; exact h1
  · rw [hq]; exact h2
  · rw [hp, hd]; exact h3
  · rw [hc, hm]; exact h4

theorem inv_generateId {α : Type} {s : State α} (h : Inv s) : Inv (generateId s).2 := by
  obtain ⟨h1, h2, h3, h4⟩ := h
  unfold generateId
  by_cases hlt : s.requestCounter < s.maxId
  · simp only [hlt, if_pos]
    exact ⟨h1, h2, h3, hlt⟩
  · simp only [hlt, if_neg, not_false_iff]
    exact ⟨h1, h2, h3, Nat.zero_le _⟩

theorem inv_addRequest {α β : Type} {s : State α} (h : Inv s) (p : α) :
    Inv (addRequest (β := β) s p).2.1 := by
  unfold addRequest
  simp only
  apply inv_tryProcessNext
  exact inv_of_fields rfl rfl rfl rfl rfl (inv_generateId h)

theorem inv_step {α β : Type} [DecidableEq α] [DecidableEq β] {s : State α}
    (h : Inv s) (a : Action α β) : Inv (step s a).1 := by
  cases a with
  | add p => exact inv_addRequest h p
  | fireTimeout id =>
    simp only [step]
    split
    · refine inv_handleTimeout ?_ id
      exact inv_of_fields rfl rfl rfl rfl rfl h
    · exact h
  | resolveOk env resp =>
    simp only [step]
    split
    · refine inv_resolveOkAux ?_ env resp
      exact inv_of_fields rfl rfl rfl rfl rfl h
    · exact h
  | resolveErr env err =>
    simp only [step]
    split
    · refine inv_handleError ?_ env.id err
      exact inv_of_fields rfl rfl rfl rfl rfl h
    · exact h
  | delayFire =>
    simp only [step]
    split
    · apply inv_tryProcessNext
      obtain ⟨h1, h2, h3, h4⟩ := h
      exact ⟨h1, h2, fun _ => rfl, h4⟩
    · exact h

theorem inv_execRun {α β : Type} [DecidableEq α] [DecidableEq β] {s : State α}
    (h : Inv s) (run : List (Action α β)) : Inv (execRun s run).1 := by
  induction run generalizing s with
  | nil => exact h
  | cons a as ih =>
    unfold execRun
    exact ih (inv_step h a)

/-! ### Constant fields through the handlers and the event loop -/

theorem handleTimeout_counter {α β : Type} (s : State α) (id : Nat) :
    (handleTimeout (β := β) s id).1.requestCounter = s.requestCounter ∧
    (handleTimeout (β := β) s id).1.maxId = s.maxId := by
  cases hget : mapGet s.activeRequests id with
  | none => rw [handleTimeout_notActive hget]; exact ⟨rfl, rfl⟩
  | some r =>
    rw [handleTimeout_active hget]
    exact ⟨(scheduleNextProcess_counter _).1, (scheduleNextProcess_counter _).2.1⟩

theorem handleError_counter {α β : Type} (s : State α) (id : Nat) (err : String) :
    (handleError (β := β) s id err).1.requestCounter = s.requestCounter ∧
    (handleError (β := β) s id err).1.maxId = s.maxId := by
  cases hget : mapGet s.activeRequests id with
  | none => rw [handleError_notActive hget]; exact ⟨rfl, rfl⟩
  | some r =>
    rw [handleError_active hget]
    exact ⟨(scheduleNextProcess_counter _).1, (scheduleNextProcess_counter _).2.1⟩

theorem resolveOkAux_counter {α β : Type} (s : State α) (env : Envelope α)
    (resp : TransportResp β) :
    (resolveOkAux s env resp).1.requestCounter = s.requestCounter ∧
    (resolveOkAux s env resp).1.maxId = s.maxId := by
  unfold resolveOkAux
  cases hid : resp.id with
  | none => rw [handleResponse_noId hid]; exact ⟨rfl, rfl⟩
  | some i =>
    cases hget : mapGet s.activeRequests i with
    | none => rw [handleResponse_notActive hid hget]; exact ⟨rfl, rfl⟩
    | some r =>
      cases hresp : resp.response with
      | none =>
        rw [handleResponse_malformed hid hget hresp]
        exact handleError_counter s env.id _
      | some rv =>
        rw [handleResponse_valid hid hget hresp]
        exact ⟨(scheduleNextProcess_counter _).1, (scheduleNextProcess_counter _).2.1⟩

theorem addRequest_maxId {α β : Type} (s : State α) (p : α) :
    (addRequest (β := β) s p).2.1.maxId = s.maxId := by
  unfold addRequest
  simp only
  exact (tryProcessNext_counter _).2.1

theorem step_maxId {α β : Type} [DecidableEq α] [DecidableEq β] (s : State α) (a : Action α β) :
    (step s a).1.maxId = s.maxId := by
  cases a with
  | add p => exact addRequest_maxId s p
  | fireTimeout id =>
    simp only [step]
    split
    · exact (handleTimeout_counter _ id).2
    · rfl
  | resolveOk env resp =>
    simp only [step]
    split
    · exact (resolveOkAux_counter _ env resp).2
    · rfl
  | resolveErr env err =>
    simp only [step]
    split
    · exact (handleError_counter _ env.id err).2
    · rfl
  | delayFire =>
    simp only [step]
    split
    · exact (tryProcessNext_counter _).2.1
    · rfl

theorem execRun_maxId {α β : Type} [DecidableEq α] [DecidableEq β] (s : State α)
    (run : List (Action α β)) : (execRun s run).1.maxId = s.maxId := by
  induction run generalizing s with
  | nil => rfl
  | cons a as ih =>
    unfold execRun
    simp only
    rw [ih, step_maxId]

/-- C1: In every state reachable from the constructor state by any
sequence of `addRequest` calls, admissions, resolutions
(success / timeout / error) and delay-expiry steps, the
`activeRequests` table holds at most one entry, `isProcessing` and
`isDelaying` are never both true, and the id counter stays in
`[0, maxId]` (the counter is a `Nat`, so `0 ≤` is inherent and `maxId`
is modelled as a non-negative integer). -/
theorem C1_state_invariant {α β : Type} [DecidableEq α] [DecidableEq β]
    (N T : Nat) (sd : Option Int) (run : List (Action α β)) :
    getActiveCount (execRun (init α N T sd) run).1 ≤ 1 ∧
    ¬((execRun (init α N T sd) run).1.isProcessing = true ∧
      (execRun (init α N T sd) run).1.isDelaying = true) ∧
    (execRun (init α N T sd) run).1.requestCounter ≤ N := by
  obtain ⟨h1, h2, h3, h4⟩ := inv_execRun (inv_init α N T sd) run
  refine ⟨h2, ?_, ?_⟩
  · rintro ⟨hp, hd⟩
    rw [h3 hp] at hd
    cases hd
  · have hm := execRun_maxId (init α N T sd) run
    rw [hm] at h4
    exact h4

/-! ### Identifier allocation -/

theorem genStep_mod (N c k : Nat) (hc : c = k % (N + 1)) :
    (if c < N then c + 1 else 0) = (k + 1) % (N + 1) := by
  have hlt : c < N + 1 := by rw [hc]; exact Nat.mod_lt _ (Nat.succ_pos N)
  by_cases h : c < N
  · rw [if_pos h]
    have hN : 1 < N + 1 := by omega
    have h1 : (k + 1) % (N + 1) = (k % (N + 1) + 1) % (N + 1) := by
      conv_lhs => rw [Nat.add_mod]
      rw [Nat.mod_eq_of_lt hN]
    rw [h1, ← hc, Nat.mod_eq_of_lt (by omega)]
  · rw [if_neg h]
    have hcN : c = N := by omega
    by_cases hN0 : N = 0
    · subst hN0
      simp [Nat.mod_one]
    · have hN : 1 < N + 1 := by omega
      have h1 : (k + 1) % (N + 1) = (k % (N + 1) + 1) % (N + 1) := by
        conv_lhs => rw [Nat.add_mod]
        rw [Nat.mod_eq_of_lt hN]
      rw [h1, ← hc, hcN, Nat.mod_self]

theorem generateId_spec {α : Type} (s : State α) (k : Nat)
    (hc : s.requestCounter = k % (s.maxId + 1)) :
    (generateId s).1 = (k + 1) % (s.maxId + 1) ∧
    (generateId s).2.requestCounter = (k + 1) % (s.maxId + 1) := by
  unfold generateId
  simp only
  have h := genStep_mod s.maxId s.requestCounter k hc
  exact ⟨h, h⟩

/-- `addRequest` decomposed: it returns the freshly generated id, and the
state it hands to the admission attempt is the old state with
`{id, request}` appended to the pending queue. -/
theorem addRequest_eq {α β : Type} (s : State α) (p : α) :
    addRequest (β := β) s p =
      ((generateId s).1,
       (tryProcessNext (β := β) { (generateId s).2 with
          queue := (generateId s).2.queue ++ [{ id := (generateId s).1, request := p }] }).1,
       Event.enqueued { id := (generateId s).1, request := p } ::
         (tryProcessNext (β := β) { (generateId s).2 with
            queue := (generateId s).2.queue ++ [{ id := (generateId s).1, request := p }] }).2) :=
  rfl

theorem addMany_ids {α : Type} (ps : List α) (s : State α) (k : Nat)
    (hc : s.requestCounter = k % (s.maxId + 1)) :
    (addMany s ps).1 =
      (List.range ps.length).map (fun i => (k + i + 1) % (s.maxId + 1)) := by
  induction ps generalizing s k with
  | nil => simp [addMany]
  | cons p ps ih =>
    have hgen := generateId_spec s k hc
    have hctr : (addRequest (β := Unit) s p).2.1.requestCounter = (k + 1) % (s.maxId + 1) := by
      rw [addRequest_eq]
      simp only
      rw [(tryProcessNext_counter _).1]
      exact hgen.2
    have hmax : (addRequest (β := Unit) s p).2.1.maxId = s.maxId := addRequest_maxId s p
    have hid : (addRequest (β := Unit) s p).1 = (k + 1) % (s.maxId + 1) := by
      rw [addRequest_eq]
      exact hgen.1
    have hih := ih (addRequest (β := Unit) s p).2.1 (k + 1) (by rw [hctr, hmax])
    unfold addMany
    simp only
    rw [hid, hih, hmax]
    simp only [List.length_cons]
    rw [List.range_succ_eq_map, List.map_cons, List.map_map]
    congr 1
    apply List.map_congr_left
    intro i _
    simp only [Function.comp]
    congr 1
    omega

/-- C4: with `maxId = N`, consecutive `addRequest` calls return the id
sequence whose k-th element (1-indexed) is `k % (N + 1)` — so for
`N = 0` every call returns `0`, and for `N > 0` the sequence is
`1, 2, …, N, 0, 1, …` (in particular `N + 2` calls yield
`1, …, N, 0, 1`); and each `addRequest` call returns the freshly
allocated id while appending `{id, request}` to the pending queue
before the admission attempt runs. -/
theorem C4_addRequest_ids {α β : Type} (N T : Nat) (sd : Option Int) (ps : List α) :
    (addMany (init α N T sd) ps).1 =
      (List.range ps.length).map (fun i => (i + 1) % (N + 1)) ∧
    ∀ (s : State α) (p : α),
      addRequest (β := β) s p =
        ((generateId s).1,
         (tryProcessNext (β := β) { (generateId s).2 with
            queue := (generateId s).2.queue ++ [{ id := (generateId s).1, request := p }] }).1,
         Event.enqueued { id := (generateId s).1, request := p } ::
           (tryProcessNext (β := β) { (generateId s).2 with
              queue := (generateId s).2.queue ++ [{ id := (generateId s).1, request := p }] }).2) := by
  constructor
  · have h := addMany_ids ps (init α N T sd) 0 (by simp [init])
    simpa using h
  · intro s p
    exact addRequest_eq s p

/-! ### Small observation lemmas -/

theorem mapGet_mapSet_self {γ : Type} (m : List (Nat × γ)) (k : Nat) (v : γ) :
    mapGet (mapSet m k v) k = some v := by
  induction m with
  | nil => simp [mapSet, mapGet]
  | cons kv rest ih =>
    obtain ⟨k1, v1⟩ := kv
    by_cases hk : k1 = k
    · subst hk
      simp [mapSet, mapGet]
    · simp [mapSet, mapGet, hk, ih]

theorem tryProcessNext_notif {α β : Type} (s : State α) :
    notifEvents (tryProcessNext (β := β) s).2 = [] := by
  unfold tryProcessNext
  split
  · rfl
  · split
    · rfl
    · simp [notifEvents]

theorem scheduleNextProcess_notif {α β : Type} (s : State α) :
    notifEvents (scheduleNextProcess (β := β) s).2 = [] := by
  unfold scheduleNextProcess
  split
  · rfl
  · split
    · split
      · rfl
      · exact tryProcessNext_notif s
    · exact tryProcessNext_notif s

/-- C6: every admission attempt (`_tryProcessNext`) satisfies: if
`isProcessing` or `isDelaying` is set, or the pending queue is empty, it
returns with the state unchanged and no output; otherwise it sets
`isProcessing`, removes exactly the head of the queue, arms a timeout
timer for `timeoutDuration` bound to the head's id, records the active
entry for that id, and dispatches the transport call with the head
envelope (recorded as the `sent` event and the outstanding promise)
without any further state change. -/
theorem C6_admission_attempt {α β : Type} (s : State α) :
    ((s.isProcessing = true ∨ s.isDelaying = true) → tryProcessNext (β := β) s = (s, [])) ∧
    (s.isProcessing = false → s.isDelaying = false → s.queue = [] →
      tryProcessNext (β := β) s = (s, [])) ∧
    (∀ (e : Envelope α) (t : List (Envelope α)),
      s.isProcessing = false → s.isDelaying = false → s.queue = e :: t →
      tryProcessNext (β := β) s =
        ({ s with
            isProcessing := true
            queue := t
            timers := s.timers ++ [(e.id, s.timeoutDuration)]
            activeRequests := mapSet s.activeRequests e.id e.request
            inFlight := s.inFlight ++ [e] },
          [Event.sent e]) ∧
      mapGet (mapSet s.activeRequests e.id e.request) e.id = some e.request) := by
  refine ⟨fun h => tryProcessNext_blocked h, fun hp hd hq => tryProcessNext_nilQueue hq,
    fun e t hp hd hq => ⟨tryProcessNext_sendHead hp hd hq, mapGet_mapSet_self _ _ _⟩⟩

/-- Witness for C6 at a concrete ready state holding one queued request. -/
theorem C6_admission_attempt_witness :
    tryProcessNext (β := Nat) { init Nat 3 100 none with queue := [{ id := 1, request := 7 }] } =
      ({ init Nat 3 100 none with
          isProcessing := true
          queue := []
          timers := [(1, 100)]
          activeRequests := [(1, 7)]
          inFlight := [{ id := 1, request := 7 }] },
        [Event.sent { id := 1, request := 7 }]) :=
  ((C6_admission_attempt { init Nat 3 100 none with
      queue := [{ id := 1, request := 7 }] }).2.2 { id := 1, request := 7 } [] rfl rfl rfl).1

/-- C7: after a resolution clears `isProcessing`, resume scheduling
(`_scheduleNextProcess`) behaves as follows: with `sendingDelay > 0` and
a non-empty pending queue it only sets `isDelaying` and arms the one-shot
delay timer (no admission yet); the delay-expiry event-loop step clears
`isDelaying` (and the timer) first and then runs the admission attempt;
and when no positive delay is configured or the queue is empty, the call
is equivalent to invoking the admission attempt directly in the same
step. -/
theorem C7_resume_scheduling {α β : Type} [DecidableEq α] [DecidableEq β] (s : State α) :
    (∀ d : Int, s.sendingDelay = some d → 0 < d → s.queue ≠ [] →
      scheduleNextProcess (β := β) s =
        ({ s with isDelaying := true, delayTimer := some d }, [])) ∧
    ((noDelay s.sendingDelay ∨ s.queue = []) →
      scheduleNextProcess (β := β) s = tryProcessNext (β := β) s) ∧
    (s.delayTimer.isSome = true →
      step s (Action.delayFire (α := α) (β := β)) =
        tryProcessNext (β := β) { s with delayTimer := none, isDelaying := false }) := by
  refine ⟨?_, ?_, ?_⟩
  · intro d hd hpos hq
    unfold scheduleNextProcess
    rw [if_neg (by simpa [List.length_eq_zero] using hq), hd]
    simp [hpos]
  · intro h
    rcases h with h | h
    · unfold scheduleNextProcess
      split
      · rename_i hq
        rw [List.length_eq_zero] at hq
        rw [tryProcessNext_nilQueue hq]
      · cases hsd : s.sendingDelay with
        | none => rfl
        | some d =>
          have hle : d ≤ 0 := h d hsd
          have hnpos : ¬ (0 : Int) < d := by omega
          simp [hnpos]
    · rw [tryProcessNext_nilQueue h]
      unfold scheduleNextProcess
      rw [if_pos (by simp [h])]
  · intro h
    simp only [step]
    rw [if_pos h]

/-- Witness for C7 at a concrete state with a positive configured delay,
a non-empty queue, and an armed delay timer. -/
theorem C7_resume_scheduling_witness :
    scheduleNextProcess (β := Nat)
        { init Nat 3 100 (some 50) with queue := [{ id := 2, request := 8 }] } =
      ({ init Nat 3 100 (some 50) with
          queue := [{ id := 2, request := 8 }]
          isDelaying := true
          delayTimer := some 50 }, []) ∧
    scheduleNextProcess (β := Nat) (init Nat 3 100 none) =
      tryProcessNext (β := Nat) (init Nat 3 100 none) :=
  ⟨(C7_resume_scheduling { init Nat 3 100 (some 50) with
        queue := [{ id := 2, request := 8 }] }).1 50 rfl (by decide) (by decide),
    (C7_resume_scheduling (init Nat 3 100 none)).2.1 (Or.inl (fun d h => by cases h))⟩

/-! ### Concrete example states (reachable by construction) -/

/-- The state after one `addRequest 7` on a fresh queue
(`maxId = 5`, `timeoutDuration = 100`, no delay): request id 1 is active
and in flight. -/
def exActive : State Nat := (execRun (init Nat 5 100 none) [Action.add (β := Nat) 7]).1

/-- `exActive` after its timeout timer fired: the entry is gone and the
dispatcher is idle, while the transport promise is still outstanding. -/
def exDrained : State Nat :=
  (execRun (init Nat 5 100 none) [Action.add (β := Nat) 7, Action.fireTimeout 1]).1

/-- A transport result carrying the active id but no `response` field. -/
def respMalformed : TransportResp Nat := { id := some 1, response := none }

/-- C5: the firing of the timeout timer for an active request emits
exactly one notification — the `timeout` one — and removes the entry
(the admission it triggers only produces a `sent` event); and once no
entry exists for an id, a late error rejection, a late timer firing and
a late success resolution for that id are silent no-ops that return the
state unchanged and emit nothing.  Together: an admitted request whose
transport call never settles gets exactly one `timeout` notification,
and no `success`/`error` notification for it can follow. -/
theorem C5_timeout_then_silence {α β : Type} (s : State α) (id : Nat) (r : α)
    (err : String) (resp : TransportResp β) :
    (getActiveCount s ≤ 1 → mapGet s.activeRequests id = some r →
      notifEvents (handleTimeout (β := β) s id).2 = [Event.timeout id r] ∧
      handleTimeout (β := β) s id =
        ((scheduleNextProcess (β := β) (afterTimeout s id)).1,
          Event.timeout id r :: (scheduleNextProcess (β := β) (afterTimeout s id)).2) ∧
      mapGet (afterTimeout s id).activeRequests id = none) ∧
    (mapGet s.activeRequests id = none →
      handleError (β := β) s id err = (s, []) ∧
      handleTimeout (β := β) s id = (s, []) ∧
      (resp.id = some id → handleResponse s resp = Except.ok (s, []))) := by
  constructor
  · intro hlen hget
    refine ⟨?_, handleTimeout_active hget, ?_⟩
    · rw [handleTimeout_active hget]
      simp only [notifEvents]
      rw [scheduleNextProcess_notif]
    · have hsing := mapGet_singleton hlen hget
      show mapGet (mapDelete s.activeRequests id) id = none
      rw [hsing, mapDelete_cons_self]
      rfl
  · intro hget
    exact ⟨handleError_notActive hget, handleTimeout_notActive hget,
      fun hid => handleResponse_notActive hid hget⟩

/-- Witness for C5: the concrete active request times out with exactly
the one `timeout 1 7` notification, and a late error rejection on the
drained state is a no-op. -/
theorem C5_timeout_then_silence_witness :
    notifEvents (handleTimeout (β := Nat) exActive 1).2 = [Event.timeout 1 7] ∧
    handleError (β := Nat) exDrained 1 "late" = (exDrained, []) :=
  ⟨((C5_timeout_then_silence exActive 1 7 "late" respMalformed).1 (by decide) (by decide)).1,
    ((C5_timeout_then_silence exDrained 1 7 "late" respMalformed).2 (by decide)).1⟩

/-- C3 counterexample: the claim says a malformed success outcome for the
active id leads to a propagated unrecoverable error with no `error`
notification.  On the code, the `throw` inside `_handleResponse` is
caught by the `.catch` of the promise chain built in `_tryProcessNext`
and routed to `_handleError`: at the concrete reachable state `exActive`
(active id 1, payload 7), resolving with `{id: 1}` and no `response`
emits precisely an `error` notification for that request, and the
dispatcher continues normally (`isProcessing` cleared, entry removed) —
nothing propagates out. -/
theorem C3_counterexample :
    notifEvents (step exActive (Action.resolveOk { id := 1, request := 7 } respMalformed)).2 =
      [Event.error 1 7 "The response structure is invalid"] ∧
    (step exActive (Action.resolveOk { id := 1, request := 7 } respMalformed)).1.isProcessing
      = false ∧
    getActiveCount (step exActive
      (Action.resolveOk { id := 1, request := 7 } respMalformed)).1 = 0 := by
  refine ⟨?_, ?_, ?_⟩ <;> rfl

/-- C3 (amended): on a success outcome whose id matches the active entry
but whose `response` field is missing, `_handleResponse` itself raises
`Error('The response structure is invalid')` (it does not emit anything
or change state); the promise chain in `_tryProcessNext` catches that
exception and routes it to `_handleError` with the envelope's id, which
emits exactly one `error` notification carrying the raised message for
that request. -/
theorem C3_malformed_success_routed {α β : Type} (s : State α) (resp : TransportResp β)
    (env : Envelope α) (i : Nat) (r : α)
    (hid : resp.id = some i) (hget : mapGet s.activeRequests i = some r)
    (hresp : resp.response = none) :
    handleResponse s resp = Except.error "The response structure is invalid" ∧
    resolveOkAux s env resp = handleError s env.id "The response structure is invalid" ∧
    (env.id = i →
      notifEvents (resolveOkAux s env resp).2 =
        [Event.error i r "The response structure is invalid"]) := by
  have h2 : resolveOkAux s env resp =
      handleError s env.id "The response structure is invalid" := by
    unfold resolveOkAux
    rw [handleResponse_malformed hid hget hresp]
  refine ⟨handleResponse_malformed hid hget hresp, h2, fun he => ?_⟩
  rw [h2, he, handleError_active hget]
  simp only [notifEvents]
  rw [scheduleNextProcess_notif]

/-- Witness for the amended C3 at the concrete reachable state. -/
theorem C3_malformed_success_routed_witness :
    resolveOkAux exActive { id := 1, request := 7 } respMalformed =
      handleError exActive 1 "The response structure is invalid" :=
  (C3_malformed_success_routed exActive respMalformed { id := 1, request := 7 } 1 7
    rfl (by decide) rfl).2.1

/-! ### Observer exceptions are contained -/

theorem handleResponseObs_eq {α β : Type} (b : Bool) (s : State α) (resp : TransportResp β) :
    handleResponseObs b s resp = handleResponse s resp := by
  unfold handleResponseObs handleResponse
  cases resp.id with
  | none => rfl
  | some i =>
    cases mapGet s.activeRequests i with
    | none => rfl
    | some r =>
      cases resp.response with
      | none => rfl
      | some rv => rfl

theorem handleTimeoutObs_eq {α β : Type} (b : Bool) (s : State α) (id : Nat) :
    handleTimeoutObs (β := β) b s id = Except.ok (handleTimeout (β := β) s id) := by
  unfold handleTimeoutObs handleTimeout
  cases mapGet s.activeRequests id <;> rfl

theorem handleErrorObs_eq {α β : Type} (b : Bool) (s : State α) (id : Nat) (err : String) :
    handleErrorObs (β := β) b s id err = Except.ok (handleError (β := β) s id err) := by
  unfold handleErrorObs handleError
  cases mapGet s.activeRequests id <;> rfl

/-- C8: whether or not the notified observer throws (`b`), each of the
three resolution handlers produces exactly the same state and
notifications, and never re-throws the observer's exception (an
`Except.error` result would model an escaping exception; none of the
three handlers can produce one from an observer throw — the only
`Except.error` of `_handleResponse` is its own malformed-shape raise,
which is independent of `b`). -/
theorem C8_observer_throw_contained {α β : Type} (b : Bool) (s : State α)
    (resp : TransportResp β) (id : Nat) (err : String) :
    handleResponseObs b s resp = handleResponse s resp ∧
    handleTimeoutObs (β := β) b s id = Except.ok (handleTimeout (β := β) s id) ∧
    handleErrorObs (β := β) b s id err = Except.ok (handleError (β := β) s id err) :=
  ⟨handleResponseObs_eq b s resp, handleTimeoutObs_eq b s id, handleErrorObs_eq b s id err⟩

/-- C10: with zero subscribed `error` listeners, Node's `EventEmitter`
throws on an `error` emission; that throw happens inside the
`try { emit } catch` of `_handleError` (modelled by the always-throwing
emission), and the handler nevertheless completes its transitions: it
returns normally, the timer is cancelled and the active entry removed,
`isProcessing` is cleared, and the next pending request is scheduled via
`_scheduleNextProcess` on the cleared state. -/
theorem C10_error_emit_without_listeners {α β : Type} (s : State α) (id : Nat)
    (err : String) (r : α) (hget : mapGet s.activeRequests id = some r) :
    handleErrorObs (β := β) true s id err =
      Except.ok ((scheduleNextProcess (β := β) (afterClear s id)).1,
        Event.error id r err :: (scheduleNextProcess (β := β) (afterClear s id)).2) ∧
    (afterClear s id).isProcessing = false ∧
    (getActiveCount s ≤ 1 → mapGet (afterClear s id).activeRequests id = none) := by
  refine ⟨?_, rfl, ?_⟩
  · rw [handleErrorObs_eq, handleError_active hget]
  · intro hlen
    have hsing := mapGet_singleton hlen hget
    show mapGet (mapDelete s.activeRequests id) id = none
    rw [hsing, mapDelete_cons_self]
    rfl

/-- Witness for C10 at the concrete reachable state with active id 1. -/
theorem C10_error_emit_without_listeners_witness :
    handleErrorObs (β := Nat) true exActive 1 "boom" =
      Except.ok ((scheduleNextProcess (β := Nat) (afterClear exActive 1)).1,
        Event.error 1 7 "boom" :: (scheduleNextProcess (β := Nat) (afterClear exActive 1)).2) :=
  (C10_error_emit_without_listeners exActive 1 "boom" 7 (by decide)).1

/-! ### FIFO order of transport invocations -/

theorem enqueuedEnvs_append {α β : Type} (xs ys : List (Event α β)) :
    enqueuedEnvs (xs ++ ys) = enqueuedEnvs xs ++ enqueuedEnvs ys := by
  induction xs with
  | nil => rfl
  | cons e rest ih => cases e <;> simp [enqueuedEnvs, ih]

theorem sentEnvs_append {α β : Type} (xs ys : List (Event α β)) :
    sentEnvs (xs ++ ys) = sentEnvs xs ++ sentEnvs ys := by
  induction xs with
  | nil => rfl
  | cons e rest ih => cases e <;> simp [sentEnvs, ih]

theorem notifEvents_append {α β : Type} (xs ys : List (Event α β)) :
    notifEvents (xs ++ ys) = notifEvents xs ++ notifEvents ys := by
  induction xs with
  | nil => rfl
  | cons e rest ih => cases e <;> simp [notifEvents, ih]

theorem fifo_tryProcessNext {α β : Type} (s : State α) :
    sentEnvs (tryProcessNext (β := β) s).2 ++ (tryProcessNext (β := β) s).1.queue =
      s.queue ++ enqueuedEnvs (tryProcessNext (β := β) s).2 := by
  by_cases hp : s.isProcessing = true
  · rw [tryProcessNext_blocked (Or.inl hp)]
    simp [sentEnvs, enqueuedEnvs]
  · by_cases hd : s.isDelaying = true
    · rw [tryProcessNext_blocked (Or.inr hd)]
      simp [sentEnvs, enqueuedEnvs]
    · rw [Bool.not_eq_true] at hp hd
      match hq : s.queue with
      | [] =>
        rw [tryProcessNext_nilQueue hq]
        simp [sentEnvs, enqueuedEnvs, hq]
      | e :: t =>
        rw [tryProcessNext_sendHead hp hd hq]
        simp [sentEnvs, enqueuedEnvs, hq]

theorem fifo_scheduleNextProcess {α β : Type} (s : State α) :
    sentEnvs (scheduleNextProcess (β := β) s).2 ++ (scheduleNextProcess (β := β) s).1.queue =
      s.queue ++ enqueuedEnvs (scheduleNextProcess (β := β) s).2 := by
  unfold scheduleNextProcess
  split
  · simp [sentEnvs, enqueuedEnvs]
  · split
    · split
      · simp [sentEnvs, enqueuedEnvs]
      · exact fifo_tryProcessNext s
    · exact fifo_tryProcessNext s

theorem fifo_handleTimeout {α β : Type} (s : State α) (id : Nat) :
    sentEnvs (handleTimeout (β := β) s id).2 ++ (handleTimeout (β := β) s id).1.queue =
      s.queue ++ enqueuedEnvs (handleTimeout (β := β) s id).2 := by
  cases hget : mapGet s.activeRequests id with
  | none =>
    rw [handleTimeout_notActive hget]
    simp [sentEnvs, enqueuedEnvs]
  | some r =>
    rw [handleTimeout_active hget]
    simp only [sentEnvs, enqueuedEnvs]
    exact fifo_scheduleNextProcess (afterTimeout s id)

theorem fifo_handleError {α β : Type} (s : State α) (id : Nat) (err : String) :
    sentEnvs (handleError (β := β) s id err).2 ++ (handleError (β := β) s id err).1.queue =
      s.queue ++ enqueuedEnvs (handleError (β := β) s id err).2 := by
  cases hget : mapGet s.activeRequests id with
  | none =>
    rw [handleError_notActive hget]
    simp [sentEnvs, enqueuedEnvs]
  | some r =>
    rw [handleError_active hget]
    simp only [sentEnvs, enqueuedEnvs]
    exact fifo_scheduleNextProcess (afterClear s id)

theorem fifo_resolveOkAux {α β : Type} (s : State α) (env : Envelope α)
    (resp : TransportResp β) :
    sentEnvs (resolveOkAux s env resp).2 ++ (resolveOkAux s env resp).1.queue =
      s.queue ++ enqueuedEnvs (resolveOkAux s env resp).2 := by
  unfold resolveOkAux
  cases hid : resp.id with
  | none =>
    rw [handleResponse_noId hid]
    simp [sentEnvs, enqueuedEnvs]
  | some i =>
    cases hget : mapGet s.activeRequests i with
    | none =>
      rw [handleResponse_notActive hid hget]
      simp [sentEnvs, enqueuedEnvs]
    | some r =>
      cases hresp : resp.response with
      | none =>
        rw [handleResponse_malformed hid hget hresp]
        exact fifo_handleError s env.id _
      | some rv =>
        rw [handleResponse_valid hid hget hresp]
        simp only [sentEnvs, enqueuedEnvs]
        exact fifo_scheduleNextProcess (afterClear s i)

theorem fifo_addRequest {α β : Type} (s : State α) (p : α) :
    sentEnvs (addRequest (β := β) s p).2.2 ++ (addRequest (β := β) s p).2.1.queue =
      s.queue ++ enqueuedEnvs (addRequest (β := β) s p).2.2 := by
  rw [addRequest_eq]
  simp only [sentEnvs, enqueuedEnvs]
  have h := fifo_tryProcessNext (β := β) { (generateId s).2 with
    queue := (generateId s).2.queue ++ [{ id := (generateId s).1, request := p }] }
  simp only at h
  rw [h]
  have hq : (generateId s).2.queue = s.queue := rfl
  rw [hq]
  simp

theorem fifo_step {α β : Type} [DecidableEq α] [DecidableEq β] (s : State α) (a : Action α β) :
    sentEnvs (step s a).2 ++ (step s a).1.queue = s.queue ++ enqueuedEnvs (step s a).2 := by
  cases a with
  | add p => exact fifo_addRequest s p
  | fireTimeout id =>
    simp only [step]
    split
    · exact fifo_handleTimeout _ id
    · simp [sentEnvs, enqueuedEnvs]
  | resolveOk env resp =>
    simp only [step]
    split
    · exact fifo_resolveOkAux _ env resp
    · simp [sentEnvs, enqueuedEnvs]
  | resolveErr env err =>
    simp only [step]
    split
    · exact fifo_handleError _ env.id err
    · simp [sentEnvs, enqueuedEnvs]
  | delayFire =>
    simp only [step]
    split
    · exact fifo_tryProcessNext _
    · simp [sentEnvs, enqueuedEnvs]

theorem fifo_execRun {α β : Type} [DecidableEq α] [DecidableEq β] (s : State α)
    (run : List (Action α β)) :
    sentEnvs (execRun s run).2 ++ (execRun s run).1.queue =
      s.queue ++ enqueuedEnvs (execRun s run).2 := by
  induction run generalizing s with
  | nil => simp [execRun, sentEnvs, enqueuedEnvs]
  | cons a as ih =>
    unfold execRun
    simp only
    rw [sentEnvs_append, enqueuedEnvs_append]
    have h1 := fifo_step s a
    have h2 := ih (step s a).1
    calc sentEnvs (step s a).2 ++ sentEnvs (execRun (step s a).1 as).2 ++
          (execRun (step s a).1 as).1.queue
        = sentEnvs (step s a).2 ++ (sentEnvs (execRun (step s a).1 as).2 ++
          (execRun (step s a).1 as).1.queue) := by rw [List.append_assoc]
      _ = sentEnvs (step s a).2 ++ ((step s a).1.queue ++
          enqueuedEnvs (execRun (step s a).1 as).2) := by rw [h2]
      _ = (sentEnvs (step s a).2 ++ (step s a).1.queue) ++
          enqueuedEnvs (execRun (step s a).1 as).2 := by rw [List.append_assoc]
      _ = (s.queue ++ enqueuedEnvs (step s a).2) ++
          enqueuedEnvs (execRun (step s a).1 as).2 := by rw [h1]
      _ = s.queue ++ (enqueuedEnvs (step s a).2 ++
          enqueuedEnvs (execRun (step s a).1 as).2) := by rw [List.append_assoc]

/-! ### At most one transport call ahead of the resolutions -/

theorem count_tryProcessNext {α β : Type} (s : State α) :
    (sentEnvs (tryProcessNext (β := β) s).2).length + s.isProcessing.toNat =
      (notifEvents (tryProcessNext (β := β) s).2).length +
        ((tryProcessNext (β := β) s).1.isProcessing).toNat := by
  by_cases hp : s.isProcessing = true
  · rw [tryProcessNext_blocked (Or.inl hp)]
    rfl
  · by_cases hd : s.isDelaying = true
    · rw [tryProcessNext_blocked (Or.inr hd)]
      rfl
    · rw [Bool.not_eq_true] at hp hd
      match hq : s.queue with
      | [] =>
        rw [tryProcessNext_nilQueue hq]
        rfl
      | e :: t =>
        rw [tryProcessNext_sendHead hp hd hq]
        simp [sentEnvs, notifEvents, hp]

theorem count_scheduleNextProcess {α β : Type} (s : State α) :
    (sentEnvs (scheduleNextProcess (β := β) s).2).length + s.isProcessing.toNat =
      (notifEvents (scheduleNextProcess (β := β) s).2).length +
        ((scheduleNextProcess (β := β) s).1.isProcessing).toNat := by
  unfold scheduleNextProcess
  split
  · rfl
  · split
    · split
      · rfl
      · exact count_tryProcessNext s
    · exact count_tryProcessNext s

/-- From the invariant: a present active entry means a request is being
processed. -/
theorem isProcessing_of_active {α : Type} {s : State α} {id : Nat} {r : α}
    (hinv : Inv s) (hget : mapGet s.activeRequests id = some r) :
    s.isProcessing = true := by
  by_contra hcon
  rw [Bool.not_eq_true] at hcon
  rw [hinv.1 hcon] at hget
  simp [mapGet] at hget

theorem count_handleTimeout {α β : Type} {s : State α} (hinv : Inv s) (id : Nat) :
    (sentEnvs (handleTimeout (β := β) s id).2).length + s.isProcessing.toNat =
      (notifEvents (handleTimeout (β := β) s id).2).length +
        ((handleTimeout (β := β) s id).1.isProcessing).toNat := by
  cases hget : mapGet s.activeRequests id with
  | none => rw [handleTimeout_notActive hget]; rfl
  | some r =>
    rw [handleTimeout_active hget]
    have hp : s.isProcessing = true := isProcessing_of_active hinv hget
    have h := count_scheduleNextProcess (β := β) (afterTimeout s id)
    have hp0 : (afterTimeout s id).isProcessing = false := rfl
    rw [hp0] at h
    simp only [Bool.toNat_false] at h
    simp only [sentEnvs, notifEvents, hp, List.length_cons, Bool.toNat_true]
    omega

theorem count_handleError {α β : Type} {s : State α} (hinv : Inv s) (id : Nat) (err : String) :
    (sentEnvs (handleError (β := β) s id err).2).length + s.isProcessing.toNat =
      (notifEvents (handleError (β := β) s id err).2).length +
        ((handleError (β := β) s id err).1.isProcessing).toNat := by
  cases hget : mapGet s.activeRequests id with
  | none => rw [handleError_notActive hget]; rfl
  | some r =>
    rw [handleError_active hget]
    have hp : s.isProcessing = true := isProcessing_of_active hinv hget
    have h := count_scheduleNextProcess (β := β) (afterClear s id)
    have hp0 : (afterClear s id).isProcessing = false := rfl
    rw [hp0] at h
    simp only [Bool.toNat_false] at h
    simp only [sentEnvs, notifEvents, hp, List.length_cons, Bool.toNat_true]
    omega

theorem count_resolveOkAux {α β : Type} {s : State α} (hinv : Inv s) (env : Envelope α)
    (resp : TransportResp β) :
    (sentEnvs (resolveOkAux s env resp).2).length + s.isProcessing.toNat =
      (notifEvents (resolveOkAux s env resp).2).length +
        ((resolveOkAux s env resp).1.isProcessing).toNat := by
  unfold resolveOkAux
  cases hid : resp.id with
  | none => rw [handleResponse_noId hid]; rfl
  | some i =>
    cases hget : mapGet s.activeRequests i with
    | none => rw [handleResponse_notActive hid hget]; rfl
    | some r =>
      cases hresp : resp.response with
      | none =>
        rw [handleResponse_malformed hid hget hresp]
        exact count_handleError hinv env.id _
      | some rv =>
        rw [handleResponse_valid hid hget hresp]
        have hp : s.isProcessing = true := isProcessing_of_active hinv hget
        have h := count_scheduleNextProcess (β := β) (afterClear s i)
        have hp0 : (afterClear s i).isProcessing = false := rfl
        rw [hp0] at h
        simp only [Bool.toNat_false] at h
        simp only [sentEnvs, notifEvents, hp, List.length_cons, Bool.toNat_true]
        omega

theorem count_addRequest {α β : Type} (s : State α) (p : α) :
    (sentEnvs (addRequest (β := β) s p).2.2).length + s.isProcessing.toNat =
      (notifEvents (addRequest (β := β) s p).2.2).length +
        ((addRequest (β := β) s p).2.1.isProcessing).toNat := by
  rw [addRequest_eq]
  simp only [sentEnvs, notifEvents]
  exact count_tryProcessNext _

theorem count_step {α β : Type} [DecidableEq α] [DecidableEq β] {s : State α}
    (hinv : Inv s) (a : Action α β) :
    (sentEnvs (step s a).2).length + s.isProcessing.toNat =
      (notifEvents (step s a).2).length + ((step s a).1.isProcessing).toNat := by
  cases a with
  | add p => exact count_addRequest s p
  | fireTimeout id =>
    simp only [step]
    split
    · refine count_handleTimeout ?_ id
      exact inv_of_fields rfl rfl rfl rfl rfl hinv
    · rfl
  | resolveOk env resp =>
    simp only [step]
    split
    · refine count_resolveOkAux ?_ env resp
      exact inv_of_fields rfl rfl rfl rfl rfl hinv
    · rfl
  | resolveErr env err =>
    simp only [step]
    split
    · refine count_handleError ?_ env.id err
      exact inv_of_fields rfl rfl rfl rfl rfl hinv
    · rfl
  | delayFire =>
    simp only [step]
    split
    · exact count_tryProcessNext _
    · rfl

theorem count_execRun {α β : Type} [DecidableEq α] [DecidableEq β] {s : State α}
    (hinv : Inv s) (run : List (Action α β)) :
    (sentEnvs (execRun s run).2).length + s.isProcessing.toNat =
      (notifEvents (execRun s run).2).length +
        ((execRun s run).1.isProcessing).toNat := by
  induction run generalizing s with
  | nil => rfl
  | cons a as ih =>
    unfold execRun
    simp only
    rw [sentEnvs_append, notifEvents_append]
    have h1 := count_step hinv a
    have h2 := ih (inv_step hinv a)
    simp only [List.length_append]
    omega

/-- C2: over every event-loop run from the constructor state, (a) the
transport is invoked on exactly a prefix of the enqueued envelopes, in
enqueue order (the remainder is the still-pending queue) — strict FIFO
under any mix of success / timeout / error outcomes; and (b) in every
prefix of the run, the number of transport invocations exceeds the
number of completed resolutions (outcome notifications) by at most one,
i.e. the next admission never happens before the previous request's
resolution has completed.  (Within one atomic step the resolution
notification is emitted before the admission it triggers, so run-prefix
granularity is exact.) -/
theorem C2_fifo_serialization {α β : Type} [DecidableEq α] [DecidableEq β]
    (N T : Nat) (sd : Option Int) (run : List (Action α β)) :
    (∃ rest, enqueuedEnvs (execRun (init α N T sd) run).2 =
        sentEnvs (execRun (init α N T sd) run).2 ++ rest) ∧
    (∀ pre post : List (Action α β), run = pre ++ post →
      (sentEnvs (execRun (init α N T sd) pre).2).length ≤
        (notifEvents (execRun (init α N T sd) pre).2).length + 1) := by
  constructor
  · refine ⟨(execRun (init α N T sd) run).1.queue, ?_⟩
    have h := fifo_execRun (init α N T sd) run
    have hq : (init α N T sd).queue = [] := rfl
    rw [hq] at h
    simpa using h.symm
  · intro pre post hsplit
    have h := count_execRun (inv_init α N T sd) pre
    have hp0 : (init α N T sd).isProcessing = false := rfl
    rw [hp0] at h
    have hb : ((execRun (init α N T sd) pre).1.isProcessing).toNat ≤ 1 := by
      cases (execRun (init α N T sd) pre).1.isProcessing <;> simp
    omega

/-- Witness for C2 at a concrete run and split. -/
theorem C2_fifo_serialization_witness :
    (sentEnvs (execRun (init Nat 5 100 none) [Action.add (β := Nat) 7]).2).length ≤
      (notifEvents (execRun (init Nat 5 100 none) [Action.add (β := Nat) 7]).2).length + 1 :=
  (C2_fifo_serialization 5 100 none [Action.add (β := Nat) 7]).2
    [Action.add (β := Nat) 7] [] (by simp)

end RQ

namespace Dup

/-! ### Characterization of the duplicate class, mirroring `RQ` -/

open RQ (Envelope TransportResp Event mapGet mapSet mapDelete hasElem removeFirst)

/-- Post-resolution state of the duplicate timeout path. -/
def afterTimeout {α : Type} (s : State α) (id : Nat) : State α :=
  { s with
    activeRequests := mapDelete s.activeRequests id
    isProcessing := false }

/-- Post-resolution state of the duplicate success / error paths. -/
def afterClear {α : Type} (s : State α) (id : Nat) : State α :=
  { s with
    timers := mapDelete s.timers id
    activeRequests := mapDelete s.activeRequests id
    isProcessing := false }

theorem tryProcessNext_blocked_dup {α β : Type} {s : State α} (h : s.isProcessing = true) :
    tryProcessNext (β := β) s = (s, []) := by
  unfold tryProcessNext
  simp [h]

theorem tryProcessNext_nilQueue_dup {α β : Type} {s : State α} (h : s.queue = []) :
    tryProcessNext (β := β) s = (s, []) := by
  unfold tryProcessNext
  split
  · rfl
  · rw [h]

theorem tryProcessNext_sendHead_dup {α β : Type} {s : State α} {e : Envelope α}
    {t : List (Envelope α)} (hp : s.isProcessing = false) (hq : s.queue = e :: t) :
    tryProcessNext (β := β) s =
      ({ s with
          isProcessing := true
          queue := t
          timers := s.timers ++ [(e.id, s.timeoutDuration)]
          activeRequests := mapSet s.activeRequests e.id e.request
          inFlight := s.inFlight ++ [e] },
        [Event.sent e]) := by
  unfold tryProcessNext
  rw [hq]
  simp [hp]

theorem handleTimeout_notActive_dup {α β : Type} {s : State α} {id : Nat}
    (hget : mapGet s.activeRequests id = none) :
    handleTimeout (β := β) s id = (s, []) := by
  unfold handleTimeout
  rw [hget]

theorem handleTimeout_active_dup {α β : Type} {s : State α} {id : Nat} {r : α}
    (hget : mapGet s.activeRequests id = some r) :
    handleTimeout (β := β) s id =
      ((tryProcessNext (β := β) (afterTimeout s id)).1,
        Event.timeout id r :: (tryProcessNext (β := β) (afterTimeout s id)).2) := by
  unfold handleTimeout
  rw [hget]
  rfl

theorem handleError_notActive_dup {α β : Type} {s : State α} {id : Nat} {err : String}
    (hget : mapGet s.activeRequests id = none) :
    handleError (β := β) s id err = (s, []) := by
  unfold handleError
  rw [hget]

theorem handleError_active_dup {α β : Type} {s : State α} {id : Nat} {err : String} {r : α}
    (hget : mapGet s.activeRequests id = some r) :
    handleError (β := β) s id err =
      ((tryProcessNext (β := β) (afterClear s id)).1,
        Event.error id r err :: (tryProcessNext (β := β) (afterClear s id)).2) := by
  unfold handleError
  rw [hget]
  rfl

theorem handleResponse_noId_dup {α β : Type} {s : State α} {resp : TransportResp β}
    (hid : resp.id = none) :
    handleResponse s resp = Except.ok (s, []) := by
  unfold handleResponse
  rw [hid]

theorem handleResponse_notActive_dup {α β : Type} {s : State α} {resp : TransportResp β} {i : Nat}
    (hid : resp.id = some i) (hget : mapGet s.activeRequests i = none) :
    handleResponse s resp = Except.ok (s, []) := by
  unfold handleResponse
  rw [hid]
  simp only
  rw [hget]

theorem handleResponse_malformed_dup {α β : Type} {s : State α} {resp : TransportResp β}
    {i : Nat} {r : α}
    (hid : resp.id = some i) (hget : mapGet s.activeRequests i = some r)
    (hresp : resp.response = none) :
    handleResponse s resp = Except.error "The response structure is invalid" := by
  unfold handleResponse
  rw [hid]
  simp only
  rw [hget]
  simp only
  rw [hresp]

theorem handleResponse_valid_dup {α β : Type} {s : State α} {resp : TransportResp β}
    {i : Nat} {r : α} {rv : β}
    (hid : resp.id = some i) (hget : mapGet s.activeRequests i = some r)
    (hresp : resp.response = some rv) :
    handleResponse s resp =
      Except.ok ((tryProcessNext (β := β) (afterClear s i)).1,
        Event.success i rv :: (tryProcessNext (β := β) (afterClear s i)).2) := by
  unfold handleResponse
  rw [hid]
  simp only
  rw [hget]
  simp only
  rw [hresp]
  rfl

/-- The duplicate `addRequest` decomposed, as `RQ.addRequest_eq`. -/
theorem addRequest_eq_dup {α β : Type} (s : State α) (p : α) :
    addRequest (β := β) s p =
      ((generateId s).1,
       (tryProcessNext (β := β) { (generateId s).2 with
          queue := (generateId s).2.queue ++ [{ id := (generateId s).1, request := p }] }).1,
       Event.enqueued { id := (generateId s).1, request := p } ::
         (tryProcessNext (β := β) { (generateId s).2 with
            queue := (generateId s).2.queue ++ [{ id := (generateId s).1, request := p }] }).2) :=
  rfl

end Dup

namespace RQ

/-! ### Equivalence with the duplicate class when no delay is configured -/

/-- The delay machinery is inert: no positive configured delay, no delay
pause, no armed delay timer. -/
def P9 {α : Type} (s : State α) : Prop :=
  noDelay s.sendingDelay ∧ s.isDelaying = false ∧ s.delayTimer = none

theorem scheduleNextProcess_noDelay {α β : Type} {s : State α}
    (hnd : noDelay s.sendingDelay) :
    scheduleNextProcess (β := β) s = tryProcessNext (β := β) s := by
  unfold scheduleNextProcess
  split
  · rename_i hq
    rw [List.length_eq_zero] at hq
    rw [tryProcessNext_nilQueue hq]
  · cases hsd : s.sendingDelay with
    | none => rfl
    | some d =>
      have hle : d ≤ 0 := hnd d hsd
      have hnpos : ¬ (0 : Int) < d := by omega
      simp [hnpos]

theorem dup_tryProcessNext {α β : Type} {s : State α} (h9 : P9 s) :
    toDup (tryProcessNext (β := β) s).1 = (Dup.tryProcessNext (β := β) (toDup s)).1 ∧
    (tryProcessNext (β := β) s).2 = (Dup.tryProcessNext (β := β) (toDup s)).2 ∧
    P9 (tryProcessNext (β := β) s).1 := by
  obtain ⟨hnd, hdel, hdt⟩ := h9
  by_cases hp : s.isProcessing = true
  · have hp2 : (toDup s).isProcessing = true := hp
    rw [tryProcessNext_blocked (Or.inl hp), Dup.tryProcessNext_blocked_dup hp2]
    exact ⟨rfl, rfl, hnd, hdel, hdt⟩
  · rw [Bool.not_eq_true] at hp
    match hq : s.queue with
    | [] =>
      have hq2 : (toDup s).queue = [] := hq
      rw [tryProcessNext_nilQueue hq, Dup.tryProcessNext_nilQueue_dup hq2]
      exact ⟨rfl, rfl, hnd, hdel, hdt⟩
    | e :: t =>
      have hp2 : (toDup s).isProcessing = false := hp
      have hq2 : (toDup s).queue = e :: t := hq
      rw [tryProcessNext_sendHead hp hdel hq, Dup.tryProcessNext_sendHead_dup hp2 hq2]
      exact ⟨rfl, rfl, hnd, hdel, hdt⟩

theorem dup_scheduleNextProcess {α β : Type} {s : State α} (h9 : P9 s) :
    toDup (scheduleNextProcess (β := β) s).1 = (Dup.tryProcessNext (β := β) (toDup s)).1 ∧
    (scheduleNextProcess (β := β) s).2 = (Dup.tryProcessNext (β := β) (toDup s)).2 ∧
    P9 (scheduleNextProcess (β := β) s).1 := by
  rw [scheduleNextProcess_noDelay h9.1]
  exact dup_tryProcessNext h9

theorem dup_handleTimeout {α β : Type} {s : State α} (h9 : P9 s) (id : Nat) :
    toDup (handleTimeout (β := β) s id).1 = (Dup.handleTimeout (β := β) (toDup s) id).1 ∧
    (handleTimeout (β := β) s id).2 = (Dup.handleTimeout (β := β) (toDup s) id).2 ∧
    P9 (handleTimeout (β := β) s id).1 := by
  cases hget : mapGet s.activeRequests id with
  | none =>
    have hg2 : mapGet (toDup s).activeRequests id = none := hget
    rw [handleTimeout_notActive hget, Dup.handleTimeout_notActive_dup hg2]
    exact ⟨rfl, rfl, h9⟩
  | some r =>
    have hg2 : mapGet (toDup s).activeRequests id = some r := hget
    rw [handleTimeout_active hget, Dup.handleTimeout_active_dup hg2]
    have h9a : P9 (afterTimeout s id) := ⟨h9.1, h9.2.1, h9.2.2⟩
    have hcomm := dup_scheduleNextProcess (β := β) h9a
    refine ⟨?_, ?_, hcomm.2.2⟩
    · show toDup (scheduleNextProcess (β := β) (afterTimeout s id)).1 =
        (Dup.tryProcessNext (β := β) (toDup (afterTimeout s id))).1
      exact hcomm.1
    · show Event.timeout id r :: (scheduleNextProcess (β := β) (afterTimeout s id)).2 =
        Event.timeout id r :: (Dup.tryProcessNext (β := β) (toDup (afterTimeout s id))).2
      rw [hcomm.2.1]

theorem dup_handleError {α β : Type} {s : State α} (h9 : P9 s) (id : Nat) (err : String) :
    toDup (handleError (β := β) s id err).1 = (Dup.handleError (β := β) (toDup s) id err).1 ∧
    (handleError (β := β) s id err).2 = (Dup.handleError (β := β) (toDup s) id err).2 ∧
    P9 (handleError (β := β) s id err).1 := by
  cases hget : mapGet s.activeRequests id with
  | none =>
    have hg2 : mapGet (toDup s).activeRequests id = none := hget
    rw [handleError_notActive hget, Dup.handleError_notActive_dup hg2]
    exact ⟨rfl, rfl, h9⟩
  | some r =>
    have hg2 : mapGet (toDup s).activeRequests id = some r := hget
    rw [handleError_active hget, Dup.handleError_active_dup hg2]
    have h9a : P9 (afterClear s id) := ⟨h9.1, h9.2.1, h9.2.2⟩
    have hcomm := dup_scheduleNextProcess (β := β) h9a
    refine ⟨?_, ?_, hcomm.2.2⟩
    · show toDup (scheduleNextProcess (β := β) (afterClear s id)).1 =
        (Dup.tryProcessNext (β := β) (toDup (afterClear s id))).1
      exact hcomm.1
    · show Event.error id r err :: (scheduleNextProcess (β := β) (afterClear s id)).2 =
        Event.error id r err :: (Dup.tryProcessNext (β := β) (toDup (afterClear s id))).2
      rw [hcomm.2.1]

theorem dup_resolveOkAux {α β : Type} {s : State α} (h9 : P9 s) (env : Envelope α)
    (resp : TransportResp β) :
    toDup (resolveOkAux s env resp).1 = (Dup.resolveOkAux (toDup s) env resp).1 ∧
    (resolveOkAux s env resp).2 = (Dup.resolveOkAux (toDup s) env resp).2 ∧
    P9 (resolveOkAux s env resp).1 := by
  unfold resolveOkAux Dup.resolveOkAux
  cases hid : resp.id with
  | none =>
    rw [handleResponse_noId hid, Dup.handleResponse_noId_dup hid]
    exact ⟨rfl, rfl, h9⟩
  | some i =>
    cases hget : mapGet s.activeRequests i with
    | none =>
      have hg2 : mapGet (toDup s).activeRequests i = none := hget
      rw [handleResponse_notActive hid hget, Dup.handleResponse_notActive_dup hid hg2]
      exact ⟨rfl, rfl, h9⟩
    | some r =>
      have hg2 : mapGet (toDup s).activeRequests i = some r := hget
      cases hresp : resp.response with
      | none =>
        rw [handleResponse_malformed hid hget hresp,
          Dup.handleResponse_malformed_dup hid hg2 hresp]
        exact dup_handleError h9 env.id "The response structure is invalid"
      | some rv =>
        rw [handleResponse_valid hid hget hresp, Dup.handleResponse_valid_dup hid hg2 hresp]
        have h9a : P9 (afterClear s i) := ⟨h9.1, h9.2.1, h9.2.2⟩
        have hcomm := dup_scheduleNextProcess (β := β) h9a
        refine ⟨?_, ?_, hcomm.2.2⟩
        · show toDup (scheduleNextProcess (β := β) (afterClear s i)).1 =
            (Dup.tryProcessNext (β := β) (toDup (afterClear s i))).1
          exact hcomm.1
        · show Event.success i rv :: (scheduleNextProcess (β := β) (afterClear s i)).2 =
            Event.success i rv :: (Dup.tryProcessNext (β := β) (toDup (afterClear s i))).2
          rw [hcomm.2.1]

theorem dup_addRequest {α β : Type} {s : State α} (h9 : P9 s) (p : α) :
    (addRequest (β := β) s p).1 = (Dup.addRequest (β := β) (toDup s) p).1 ∧
    toDup (addRequest (β := β) s p).2.1 = (Dup.addRequest (β := β) (toDup s) p).2.1 ∧
    (addRequest (β := β) s p).2.2 = (Dup.addRequest (β := β) (toDup s) p).2.2 ∧
    P9 (addRequest (β := β) s p).2.1 := by
  rw [addRequest_eq, Dup.addRequest_eq_dup]
  have h9X : P9 ({ (generateId s).2 with
      queue := (generateId s).2.queue ++ [{ id := (generateId s).1, request := p }] }) :=
    ⟨h9.1, h9.2.1, h9.2.2⟩
  have hcomm := dup_tryProcessNext (β := β) h9X
  refine ⟨rfl, ?_, ?_, hcomm.2.2⟩
  · exact hcomm.1
  · show Event.enqueued { id := (generateId s).1, request := p } ::
        (tryProcessNext (β := β) { (generateId s).2 with
          queue := (generateId s).2.queue ++ [{ id := (generateId s).1, request := p }] }).2 =
      Event.enqueued { id := (generateId s).1, request := p } ::
        (Dup.tryProcessNext (β := β) (toDup ({ (generateId s).2 with
          queue := (generateId s).2.queue ++ [{ id := (generateId s).1, request := p }] }))).2
    rw [hcomm.2.1]

theorem dup_step {α β : Type} [DecidableEq α] [DecidableEq β] {s : State α}
    (h9 : P9 s) (a : Action α β) :
    toDup (step s a).1 = (Dup.step (toDup s) a).1 ∧
    (step s a).2 = (Dup.step (toDup s) a).2 ∧
    P9 (step s a).1 := by
  cases a with
  | add p =>
    have h := dup_addRequest (β := β) h9 p
    exact ⟨h.2.1, h.2.2.1, h.2.2.2⟩
  | fireTimeout id =>
    simp only [step, Dup.step]
    by_cases hT : (mapGet s.timers id).isSome = true
    · have hT2 : (mapGet (toDup s).timers id).isSome = true := hT
      rw [if_pos hT, if_pos hT2]
      have h9m : P9 ({ s with timers := mapDelete s.timers id }) :=
        ⟨h9.1, h9.2.1, h9.2.2⟩
      have h := dup_handleTimeout (β := β) h9m id
      exact ⟨h.1, h.2.1, h.2.2⟩
    · have hT2 : ¬ (mapGet (toDup s).timers id).isSome = true := hT
      rw [if_neg hT, if_neg hT2]
      exact ⟨rfl, rfl, h9⟩
  | resolveOk env resp =>
    simp only [step, Dup.step]
    by_cases hF : hasElem env s.inFlight = true
    · have hF2 : hasElem env (toDup s).inFlight = true := hF
      rw [if_pos hF, if_pos hF2]
      have h9m : P9 ({ s with inFlight := removeFirst env s.inFlight }) :=
        ⟨h9.1, h9.2.1, h9.2.2⟩
      have h := dup_resolveOkAux h9m env resp
      exact ⟨h.1, h.2.1, h.2.2⟩
    · have hF2 : ¬ hasElem env (toDup s).inFlight = true := hF
      rw [if_neg hF, if_neg hF2]
      exact ⟨rfl, rfl, h9⟩
  | resolveErr env err =>
    simp only [step, Dup.step]
    by_cases hF : hasElem env s.inFlight = true
    · have hF2 : hasElem env (toDup s).inFlight = true := hF
      rw [if_pos hF, if_pos hF2]
      have h9m : P9 ({ s with inFlight := removeFirst env s.inFlight }) :=
        ⟨h9.1, h9.2.1, h9.2.2⟩
      have h := dup_handleError (β := β) h9m env.id err
      exact ⟨h.1, h.2.1, h.2.2⟩
    · have hF2 : ¬ hasElem env (toDup s).inFlight = true := hF
      rw [if_neg hF, if_neg hF2]
      exact ⟨rfl, rfl, h9⟩
  | delayFire =>
    simp only [step, Dup.step]
    have hdt : ¬ s.delayTimer.isSome = true := by rw [h9.2.2]; simp
    rw [if_neg hdt]
    exact ⟨rfl, rfl, h9⟩

theorem dup_execRun {α β : Type} [DecidableEq α] [DecidableEq β] {s : State α}
    (h9 : P9 s) (run : List (Action α β)) :
    toDup (execRun s run).1 = (Dup.execRun (toDup s) run).1 ∧
    (execRun s run).2 = (Dup.execRun (toDup s) run).2 ∧
    P9 (execRun s run).1 := by
  induction run generalizing s with
  | nil => exact ⟨rfl, rfl, h9⟩
  | cons a as ih =>
    unfold execRun Dup.execRun
    simp only
    have h1 := dup_step h9 a
    have h2 := ih h1.2.2
    refine ⟨?_, ?_, h2.2.2⟩
    · rw [h2.1, h1.1]
    · rw [h1.2.1, h2.2.1, h1.1]

/-- C9: whenever `sendingDelay` is absent or not positive, the
`RequestQueue` of `src/request-queue.js` and the duplicate class embedded
in the demo file have identical observable behavior: for every event-loop
run (any sequence of `addRequest` calls, timer firings, and transport
outcomes) both produce the same event trace — hence the same id
assignments, transport invocations and notifications — and the same
`getQueueSize` / `getActiveCount` values, the final states agreeing on
every shared field.  (With no positive delay, `_scheduleNextProcess`
reduces to the duplicate's direct `_tryProcessNext` call.) -/
theorem C9_duplicate_equivalence {α β : Type} [DecidableEq α] [DecidableEq β]
    (N T : Nat) (sd : Option Int) (run : List (Action α β)) (hsd : noDelay sd) :
    (execRun (init α N T sd) run).2 = (Dup.execRun (Dup.init α N T) run).2 ∧
    toDup (execRun (init α N T sd) run).1 = (Dup.execRun (Dup.init α N T) run).1 ∧
    getQueueSize (execRun (init α N T sd) run).1 =
      Dup.getQueueSize (Dup.execRun (Dup.init α N T) run).1 ∧
    getActiveCount (execRun (init α N T sd) run).1 =
      Dup.getActiveCount (Dup.execRun (Dup.init α N T) run).1 := by
  have h9 : P9 (init α N T sd) := ⟨hsd, rfl, rfl⟩
  have h := dup_execRun h9 run
  have heq : toDup (init α N T sd) = Dup.init α N T := rfl
  rw [heq] at h
  refine ⟨h.2.1, h.1, ?_, ?_⟩
  · show (execRun (init α N T sd) run).1.queue.length =
      (Dup.execRun (Dup.init α N T) run).1.queue.length
    rw [← h.1]
    rfl
  · show (execRun (init α N T sd) run).1.activeRequests.length =
      (Dup.execRun (Dup.init α N T) run).1.activeRequests.length
    rw [← h.1]
    rfl

/-- Witness for C9 on a concrete run with `sendingDelay` absent. -/
theorem C9_duplicate_equivalence_witness :
    (execRun (init Nat 5 100 none) [Action.add (β := Nat) 7]).2 =
      (Dup.execRun (Dup.init Nat 5 100) [Action.add (β := Nat) 7]).2 :=
  (C9_duplicate_equivalence 5 100 none [Action.add (β := Nat) 7]
    (fun _ h => nomatch h)).1

end RQ
